import Mathlib

/-!
Verification development for the `mtext-parser` repository
(`src/parser.ts`).  The TypeScript source is embedded shallowly:

* strings are `List Char`; the `TextScanner` class becomes a structure
  `(text, index)` with pure operations returning new scanners;
* JS numbers appearing in the formatting context are modelled as `ℚ`
  (every numeric literal the grammar accepts denotes an exact decimal,
  so the rational value coincides with the JS float value for all the
  inputs used here); colour bytes and bit sets are `ℕ`;
* JS `''` results of `get`/`peek` past the end of the text are modelled
  as `none : Option Char`, and each call site reproduces the way the
  source treats `''` (e.g. `'\\{}'.includes('')` is `true` in JS);
* the generator `parse()` and every `while` loop that does not provably
  consume input are given a fuel parameter; a result of `none` means
  the fuel was exhausted, and a statement `∀ fuel, … = none` exhibits
  non-termination of the corresponding source loop;
* a thrown JS exception is `JsRes.thrown`; the only `throw` sites are
  the unknown-command branch of `parseProperties` and the `aci` setter.

Reference-level aliasing produced by `MTextContext.copy()` cannot be
seen by a value-level embedding, so a small explicit-heap model of the
reference-typed fields of the context accompanies the value model; it
is used for the claims about deep copying.
-/

set_option maxRecDepth 8000

namespace Mtext

/-- Token types used in MText parsing (enum `TokenType` in `parser.ts`).
`NONE = 0` is the only falsy member, which is what terminates the
token-production loop (`if (type)`). -/
inductive TokenType where
  | NONE
  | WORD
  | STACK
  | SPACE
  | NBSP
  | TABULATOR
  | NEW_PARAGRAPH
  | NEW_COLUMN
  | WRAP_AT_DIMLINE
  | PROPERTIES_CHANGED
deriving DecidableEq, Repr

/-- Line alignment options (enum `MTextLineAlignment`). -/
inductive MTextLineAlignment where
  | BOTTOM
  | MIDDLE
  | TOP
deriving DecidableEq, Repr

/-- Paragraph alignment options (enum `MTextParagraphAlignment`). -/
inductive MTextParagraphAlignment where
  | DEFAULT
  | LEFT
  | RIGHT
  | CENTER
  | JUSTIFIED
  | DISTRIBUTED
deriving DecidableEq, Repr

/-- Stroke bit masks (enum `MTextStroke`). -/
def MTextStroke.UNDERLINE : ℕ := 1

/-- Overline bit of the stroke bit set. -/
def MTextStroke.OVERLINE : ℕ := 2

/-- Strike-through bit of the stroke bit set. -/
def MTextStroke.STRIKE_THROUGH : ℕ := 4

/-- Scale factor together with the absolute/relative flag
(interface `FactorValue`). -/
structure FactorValue where
  value : ℚ
  isRelative : Bool
deriving DecidableEq, Repr

/-- Font face record (interface `FontFace`). -/
structure FontFace where
  family : List Char
  style : List Char
  weight : ℕ
deriving DecidableEq, Repr

/-- One tab stop: either a plain left-aligned position, or a position
tagged `r`/`c`.  The source stores the tagged form as the string
`type + value.toString()`; the tag and the numeric value are kept
separately here. -/
inductive TabStop where
  | plain (v : ℚ)
  | tagged (t : Char) (v : ℚ)
deriving DecidableEq, Repr

/-- Paragraph properties (interface `ParagraphProperties`). -/
structure ParagraphProperties where
  indent : ℚ
  left : ℚ
  right : ℚ
  align : MTextParagraphAlignment
  tab_stops : List TabStop
deriving DecidableEq, Repr

/-- Special character encoding map `SPECIAL_CHAR_ENCODING`
(`c ↦ Ø`, `d ↦ °`, `p ↦ ±`). -/
def SPECIAL_CHAR_ENCODING (c : Char) : Option Char :=
  if c = 'c' then some 'Ø'
  else if c = 'd' then some '°'
  else if c = 'p' then some '±'
  else none

/-- Character-to-paragraph-alignment map `CHAR_TO_ALIGN`. -/
def CHAR_TO_ALIGN (c : Char) : Option MTextParagraphAlignment :=
  if c = 'l' then some MTextParagraphAlignment.LEFT
  else if c = 'r' then some MTextParagraphAlignment.RIGHT
  else if c = 'c' then some MTextParagraphAlignment.CENTER
  else if c = 'j' then some MTextParagraphAlignment.JUSTIFIED
  else if c = 'd' then some MTextParagraphAlignment.DISTRIBUTED
  else none

/-- `rgb2int([r, g, b]) = (b << 16) | (g << 8) | r` from the source. -/
def rgb2int (rgb : ℕ × ℕ × ℕ) : ℕ :=
  let (r, g, b) := rgb
  (b <<< 16) ||| (g <<< 8) ||| r

/-- `int2rgb(value)`: extracts the low, middle and high byte of the
packed value, in that order. -/
def int2rgb (value : ℕ) : ℕ × ℕ × ℕ :=
  let r := value &&& 0xff
  let g := (value >>> 8) &&& 0xff
  let b := (value >>> 16) &&& 0xff
  (r, g, b)

/-- Scanner over an immutable character sequence
(class `TextScanner`): the text plus the current index. -/
structure TextScanner where
  text : List Char
  index : ℕ
deriving DecidableEq, Repr

namespace TextScanner

/-- `textLen` of the scanner. -/
def textLen (s : TextScanner) : ℕ := s.text.length

/-- `isEmpty`: the index has reached the end of the text. -/
def isEmpty (s : TextScanner) : Bool := s.textLen ≤ s.index

/-- `hasData`: there is more text to scan. -/
def hasData (s : TextScanner) : Bool := s.index < s.textLen

/-- `get()`: the next character (or `none` for the JS empty string at
the end) and the advanced scanner. -/
def get (s : TextScanner) : Option Char × TextScanner :=
  if s.isEmpty then (none, s)
  else (s.text.get? s.index, { s with index := s.index + 1 })

/-- `consume(count)`: advance the index by `count`, clamped into
`[0, textLen]` (`Math.max(0, Math.min(index + count, textLen))`). -/
def consume (s : TextScanner) (count : ℤ) : TextScanner :=
  { s with index := (max 0 (min ((s.index : ℤ) + count) (s.textLen : ℤ))).toNat }

/-- `peek(offset)`: the character at `index + offset`, or `none`
(for the JS empty string) out of bounds. -/
def peek (s : TextScanner) (offset : ℤ) : Option Char :=
  let i : ℤ := (s.index : ℤ) + offset
  if i ≥ (s.textLen : ℤ) ∨ i < 0 then none
  else s.text.get? i.toNat

/-- Loop body of `find`, recursing over the unscanned suffix while
keeping the absolute position `i`.  When `escape` is set, a backslash
whose following character is the target makes `find` return that
character's position; a backslash followed by any other character is
skipped together with that character. -/
def findLoop (c : Char) (escape : Bool) : List Char → ℕ → Option ℕ
  | [], _ => none
  | x :: rest, i =>
    if escape ∧ x = '\\' then
      match rest with
      | y :: rest1 =>
        if y = c then some (i + 1) else findLoop c escape rest1 (i + 2)
      | [] => findLoop c escape [] (i + 1)
    else if x = c then some i
    else findLoop c escape rest (i + 1)

/-- `find(char, escape)`: position of the next occurrence found by
`findLoop`, starting at the current index (`none` models `-1`). -/
def find (s : TextScanner) (c : Char) (escape : Bool) : Option ℕ :=
  findLoop c escape (s.text.drop s.index) s.index

/-- `tail`: the remaining text from the current position. -/
def tail (s : TextScanner) : List Char := s.text.drop s.index

end TextScanner

/-- Digit-run to number conversion (the effect of JS `parseInt` on a
string of decimal digits). -/
def digitsToNat (l : List Char) : ℕ :=
  l.foldl (fun a c => a * 10 + (c.toNat - 48)) 0

/-- Splits a list at the first element satisfying `p`; the second
component is `none` when no such element exists. -/
def splitAtChar (p : Char → Bool) (l : List Char) : List Char × Option (List Char) :=
  let pre := l.takeWhile (fun c => ¬ p c)
  match l.dropWhile (fun c => ¬ p c) with
  | [] => (pre, none)
  | _ :: rest => (pre, some rest)

/-- Value of JS `parseFloat` on a string matched by one of the float
regexes of the source: optional sign, integer digits, optional
fraction, optional exponent.  The value is exact as a rational. -/
def parseFloatQ (l : List Char) : ℚ :=
  let (sgn, l1) : ℚ × List Char :=
    match l with
    | '-' :: rest => (-1, rest)
    | '+' :: rest => (1, rest)
    | _ => (1, l)
  let (mant, expPart) := splitAtChar (fun c => c = 'e' ∨ c = 'E') l1
  let (ip, fpOpt) := splitAtChar (fun c => c = '.') mant
  let fp := fpOpt.getD []
  let mval : ℚ := (digitsToNat ip : ℚ) + (digitsToNat fp : ℚ) / (10 : ℚ) ^ fp.length
  let eval : ℤ :=
    match expPart with
    | none => 0
    | some ('-' :: ds) => -(digitsToNat ds : ℤ)
    | some ('+' :: ds) => (digitsToNat ds : ℤ)
    | some ds => (digitsToNat ds : ℤ)
  sgn * mval * (10 : ℚ) ^ eval

/-- Optional sign prefix of a numeric literal. -/
def matchSign : List Char → List Char × List Char
  | c :: rest => if c = '+' ∨ c = '-' then ([c], rest) else ([], c :: rest)
  | [] => ([], [])

/-- Longest digit prefix together with the rest. -/
def takeDigits (l : List Char) : List Char × List Char :=
  (l.takeWhile Char.isDigit, l.dropWhile Char.isDigit)

/-- Mantissa of the float regex `(?:\d+(?:\.\d*)?|\.\d+)` when
`allowLeadingDot` is set, and `\d+(?:\.\d*)?` otherwise.  Returns the
matched prefix and the rest, or `none` when the mandatory part is
missing (then the whole regex fails). -/
def matchMantissa (allowLeadingDot : Bool) (l : List Char) :
    Option (List Char × List Char) :=
  match l with
  | '.' :: rest =>
    if allowLeadingDot then
      let (ds, rest1) := takeDigits rest
      if ds.isEmpty then none else some ('.' :: ds, rest1)
    else none
  | _ =>
    let (ds, rest1) := takeDigits l
    if ds.isEmpty then none
    else
      match rest1 with
      | '.' :: rest2 =>
        let (fs, rest3) := takeDigits rest2
        some (ds ++ '.' :: fs, rest3)
      | _ => some (ds, rest1)

/-- Exponent part `(?:[eE][+-]?\d+)?`: matched prefix and rest; the
empty match when the digits are missing (regex backtracking). -/
def matchExp (l : List Char) : List Char × List Char :=
  match l with
  | e :: rest =>
    if e = 'e' ∨ e = 'E' then
      let (sg, rest1) := matchSign rest
      let (ds, rest2) := takeDigits rest1
      if ds.isEmpty then ([], l) else (e :: (sg ++ ds), rest2)
    else ([], l)
  | [] => ([], [])

/-- Longest prefix of `l` matched by the float regex of
`extractFloatExpression`; `relative` enables the trailing `x?`.
Returns `[]` when the regex does not match at the start. -/
def matchFloat (relative : Bool) (l : List Char) : List Char :=
  let (sg, rest) := matchSign l
  match matchMantissa true rest with
  | none => []
  | some (m, rest1) =>
    let (e, rest2) := matchExp rest1
    let x : List Char :=
      if relative then
        match rest2 with
        | 'x' :: _ => ['x']
        | _ => []
      else []
    sg ++ m ++ e ++ x

/-- Longest prefix matched by the regex
`^[+-]?\d+(?:\.\d*)?(?:[eE][+-]?\d+)?` used by `parseFloatValue`
inside `parseParagraphProperties`; `[]` when there is no match. -/
def matchPpFloat (l : List Char) : List Char :=
  let (sg, rest) := matchSign l
  match matchMantissa false rest with
  | none => []
  | some (m, rest1) =>
    let (e, _) := matchExp rest1
    sg ++ m ++ e

/-- JS `String.prototype.slice(start, end)` on a character list
(non-negative arguments, clamped). -/
def jsSlice (l : List Char) (s e : ℕ) : List Char :=
  (l.take e).drop s

/-- JS `String.prototype.includes(needle)` on character lists. -/
def jsIncludes (needle : List Char) : List Char → Bool
  | [] => needle.isEmpty
  | c :: rest => needle.isPrefixOf (c :: rest) || jsIncludes needle rest

/-!  Stacking sub-grammar (`MTextParser.parseStacking`).  The local
closure `getNextChar` maps control characters to a space, consumes a
backslash together with the following character (setting the escape
flag), and is inlined in the two scanning loops below; both loops
consume at least one character per step, so they are structural
recursions over the expression. -/

/-- `parseNumerator` of `parseStacking`: scans until an unescaped
divider `/`, `#` or `^`; returns the numerator, the divider (`[]` when
input ended first, like the JS empty string) and the unconsumed rest. -/
def parseNumerator : List Char → List Char × List Char × List Char
  | [] => ([], [], [])
  | c0 :: rest0 =>
    let c1 := if c0.toNat < 32 then ' ' else c0
    if c1 = '\\' then
      match rest0 with
      | [] => ([], [], [])
      | c2 :: rest2 =>
        let (w, t, r) := parseNumerator rest2
        (c2 :: w, t, r)
    else if c1 = '/' ∨ c1 = '#' ∨ c1 = '^' then ([], [c1], rest0)
    else
      let (w, t, r) := parseNumerator rest0
      (c1 :: w, t, r)

/-- `parseDenominator` of `parseStacking`: optionally skips leading
spaces (only after a `^` divider), stops at an unescaped `;`, keeps an
escaped character as-is. -/
def parseDenominator : Bool → List Char → List Char
  | _, [] => []
  | skipping, c0 :: rest0 =>
    let c1 := if c0.toNat < 32 then ' ' else c0
    if c1 = '\\' then
      match rest0 with
      | [] => []
      | c2 :: rest2 =>
        if skipping ∧ c2 = ' ' then parseDenominator skipping rest2
        else c2 :: parseDenominator false rest2
    else if skipping ∧ c1 = ' ' then parseDenominator skipping rest0
    else if c1 = ';' then []
    else c1 :: parseDenominator false rest0

/-- Body of `MTextParser.parseStacking` on the already-extracted
expression: numerator scan, denominator scan (skipping leading spaces
exactly when the divider is `^`), then the special case replacing an
empty numerator whose denominator contains `"I/"` by the fixed payload
`(" ", " ", "/")`.  The source's final `if (stackingType === '^')`
branch returns the same triple as the fall-through return and is folded
into it. -/
def parseStackingCore (expr : List Char) : List Char × List Char × List Char :=
  let (numerator, stackingType, rest) := parseNumerator expr
  let denominator :=
    if stackingType.isEmpty then []
    else parseDenominator (stackingType = ['^']) rest
  if numerator.isEmpty ∧ jsIncludes ['I', '/'] denominator then
    ([' '], [' '], ['/'])
  else (numerator, denominator, stackingType)

/-!  Formatting context (`class MTextContext`). -/

/-- Value snapshot of the formatting state (`MTextContext`).  The
private fields `_stroke`, `_aci`, `_capHeight`, `_widthFactor` and
`_charTrackingFactor` are ordinary fields here; their setters below
perform the validation/normalisation done by the class setters. -/
structure MTextContext where
  stroke : ℕ
  continueStroke : Bool
  aci : ℤ
  rgb : Option (ℕ × ℕ × ℕ)
  align : MTextLineAlignment
  fontFace : FontFace
  capHeight : FactorValue
  widthFactor : FactorValue
  charTrackingFactor : FactorValue
  oblique : ℚ
  paragraph : ParagraphProperties
deriving DecidableEq, Repr

/-- `new MTextContext()`: the default-initialised context. -/
def MTextContext.default : MTextContext where
  stroke := 0
  continueStroke := false
  aci := 7
  rgb := none
  align := MTextLineAlignment.BOTTOM
  fontFace := ⟨[], "Regular".toList, 400⟩
  capHeight := ⟨1, false⟩
  widthFactor := ⟨1, false⟩
  charTrackingFactor := ⟨1, false⟩
  oblique := 0
  paragraph := ⟨0, 0, 0, MTextParagraphAlignment.DEFAULT, []⟩

namespace MTextContext

/-- `_setStrokeState`: set or clear one stroke bit.  The JS clear is
`_stroke &= ~stroke` on 32-bit integers, i.e. a mask with the bitwise
complement. -/
def _setStrokeState (s : ℕ) (stroke : ℕ) (state : Bool) : ℕ :=
  if state then s ||| stroke else s &&& (0xffffffff ^^^ stroke)

/-- Getter `underline`. -/
def underline (c : MTextContext) : Bool :=
  c.stroke &&& MTextStroke.UNDERLINE != 0

/-- Setter `underline`. -/
def setUnderline (c : MTextContext) (v : Bool) : MTextContext :=
  { c with stroke := _setStrokeState c.stroke MTextStroke.UNDERLINE v }

/-- Getter `overline`. -/
def overline (c : MTextContext) : Bool :=
  c.stroke &&& MTextStroke.OVERLINE != 0

/-- Setter `overline`. -/
def setOverline (c : MTextContext) (v : Bool) : MTextContext :=
  { c with stroke := _setStrokeState c.stroke MTextStroke.OVERLINE v }

/-- Getter `strikeThrough`. -/
def strikeThrough (c : MTextContext) : Bool :=
  c.stroke &&& MTextStroke.STRIKE_THROUGH != 0

/-- Setter `strikeThrough`. -/
def setStrikeThrough (c : MTextContext) (v : Bool) : MTextContext :=
  { c with stroke := _setStrokeState c.stroke MTextStroke.STRIKE_THROUGH v }

/-- Getter `hasAnyStroke`: `Boolean(this._stroke)`. -/
def hasAnyStroke (c : MTextContext) : Bool :=
  c.stroke != 0

/-- Setter `capHeight`: stores the absolute value of the magnitude. -/
def setCapHeight (c : MTextContext) (v : FactorValue) : MTextContext :=
  { c with capHeight := ⟨|v.value|, v.isRelative⟩ }

/-- Setter `widthFactor`: stores the absolute value of the magnitude. -/
def setWidthFactor (c : MTextContext) (v : FactorValue) : MTextContext :=
  { c with widthFactor := ⟨|v.value|, v.isRelative⟩ }

/-- Setter `charTrackingFactor`: stores the absolute value. -/
def setCharTrackingFactor (c : MTextContext) (v : FactorValue) : MTextContext :=
  { c with charTrackingFactor := ⟨|v.value|, v.isRelative⟩ }

/-- Setter `aci`: accepts values in `[0, 256]`, storing the value and
clearing `rgb`; any other value throws (`Error` modelled as
`Except.error ()`) and leaves the context untouched. -/
def setAci (c : MTextContext) (value : ℤ) : Except Unit MTextContext :=
  if 0 ≤ value ∧ value ≤ 256 then
    Except.ok { c with aci := value, rgb := none }
  else Except.error ()

/-- `copy()` at the value level: every field is copied.  (The source
copies `fontFace`, the factor records and `paragraph` with an object
spread and shares the `rgb` and `tab_stops` arrays by reference; the
reference-level behaviour is modelled separately by `JsHeap` below.) -/
def copy (c : MTextContext) : MTextContext where
  stroke := c.stroke
  continueStroke := c.continueStroke
  aci := c.aci
  rgb := c.rgb
  align := c.align
  fontFace := c.fontFace
  capHeight := c.capHeight
  widthFactor := c.widthFactor
  charTrackingFactor := c.charTrackingFactor
  oblique := c.oblique
  paragraph := c.paragraph

end MTextContext

/-- Partial paragraph properties (the `paragraph` entry of a property
diff, `Partial<ParagraphProperties>`). -/
structure PartialParagraphProperties where
  indent : Option ℚ := none
  left : Option ℚ := none
  right : Option ℚ := none
  align : Option MTextParagraphAlignment := none
  tab_stops : Option (List TabStop) := none
deriving DecidableEq, Repr

/-- Property diff carried by a `PROPERTIES_CHANGED` token
(interface `Properties`); absent keys are `none`. -/
structure Properties where
  underline : Option Bool := none
  overline : Option Bool := none
  strikeThrough : Option Bool := none
  aci : Option ℤ := none
  rgb : Option (Option (ℕ × ℕ × ℕ)) := none
  align : Option MTextLineAlignment := none
  fontFace : Option FontFace := none
  capHeight : Option FactorValue := none
  widthFactor : Option FactorValue := none
  charTrackingFactor : Option FactorValue := none
  oblique : Option ℚ := none
  paragraph : Option PartialParagraphProperties := none
deriving DecidableEq, Repr

/-- `Object.keys(changes).length > 0` is false exactly here. -/
def Properties.isEmptyDiff (p : Properties) : Bool :=
  p.underline = none ∧ p.overline = none ∧ p.strikeThrough = none ∧
  p.aci = none ∧ p.rgb = none ∧ p.align = none ∧ p.fontFace = none ∧
  p.capHeight = none ∧ p.widthFactor = none ∧
  p.charTrackingFactor = none ∧ p.oblique = none ∧ p.paragraph = none

/-- Payload of a `PROPERTIES_CHANGED` token
(interface `ChangedProperties`). -/
structure ChangedProperties where
  command : Char
  changes : Properties
deriving DecidableEq, Repr

/-- Data carried by a token (`TokenData`), with `null` for the
data-free kinds. -/
inductive TokenData where
  | null
  | word (s : List Char)
  | stack (numerator denominator type : List Char)
  | changed (p : ChangedProperties)
deriving DecidableEq, Repr

/-- Emitted token (`class MTextToken`): kind, the context snapshot
valid at its position, and the payload. -/
structure MTextToken where
  type : TokenType
  ctx : MTextContext
  data : TokenData
deriving DecidableEq, Repr

/-- Result of running a piece of JS code that may loop forever
(`diverge`, the fuel ran out) or throw (`thrown`). -/
inductive JsRes (α : Type) where
  | diverge
  | thrown
  | ok (a : α)
deriving DecidableEq, Repr

/-!  Field extraction helpers of `MTextParser`. -/

/-- `extractFloatExpression(relative)`: match the float regex against
the tail, consume the match, return it. -/
def extractFloatExpression (relative : Bool) (sc : TextScanner) :
    List Char × TextScanner :=
  let m := matchFloat relative sc.tail
  (m, sc.consume (m.length : ℤ))

/-- `extractIntExpression()`: match `^\d+` against the tail, consume
the match, return it. -/
def extractIntExpression (sc : TextScanner) : List Char × TextScanner :=
  let m := sc.tail.takeWhile Char.isDigit
  (m, sc.consume (m.length : ℤ))

/-- `extractExpression(escape)`: read up to the terminating `;` found
by the escape-aware search (or the whole tail when there is none);
when the character before the found `;` is a backslash the `;` is kept
in the expression.  Consumes the expression plus one character. -/
def extractExpression (escape : Bool) (sc : TextScanner) :
    List Char × TextScanner :=
  match sc.find ';' escape with
  | none =>
    let expr := sc.tail
    (expr, sc.consume (expr.length : ℤ))
  | some stop =>
    let prevChar := sc.peek ((stop : ℤ) - (sc.index : ℤ) - 1)
    let isEscaped := prevChar = some '\\'
    let expr := sc.tail.take (stop - sc.index + (if isEscaped then 1 else 0))
    (expr, sc.consume ((expr.length : ℤ) + 1))

/-- `consumeOptionalTerminator()`: consume one `;` if it is next. -/
def consumeOptionalTerminator (sc : TextScanner) : TextScanner :=
  if sc.peek 0 = some ';' then sc.consume 1 else sc

/-!  Property-command sub-parsers.  Each takes the context being built
and the main scanner and returns both updated. -/

/-- `parseAlign`: one character `0`/`1`/`2` selects the line alignment,
anything else resets to `BOTTOM`.  (JS corner: at the end of input
`get()` is `''`, `'012'.includes('')` is true and `parseInt('')` is
`NaN`; no claim exercises this corner and it is modelled as the
`BOTTOM` reset.) -/
def parseAlign (ctx : MTextContext) (sc : TextScanner) :
    MTextContext × TextScanner :=
  let (ch, sc1) := sc.get
  let ctx1 :=
    match ch with
    | some c =>
      if c = '0' then { ctx with align := MTextLineAlignment.BOTTOM }
      else if c = '1' then { ctx with align := MTextLineAlignment.MIDDLE }
      else if c = '2' then { ctx with align := MTextLineAlignment.TOP }
      else { ctx with align := MTextLineAlignment.BOTTOM }
    | none => { ctx with align := MTextLineAlignment.BOTTOM }
  (ctx1, consumeOptionalTerminator sc1)

/-- `parseHeight`: float literal, optional `x` suffix marking a
relative factor; assigned through the `capHeight` setter.  (The JS
`try`/`catch` around `parseFloat` is dead code: `parseFloat` does not
throw.) -/
def parseHeight (ctx : MTextContext) (sc : TextScanner) :
    MTextContext × TextScanner :=
  let (expr, sc1) := extractFloatExpression true sc
  if expr.isEmpty then (ctx, consumeOptionalTerminator sc1)
  else
    let ctx1 :=
      if expr.getLast? = some 'x' then
        ctx.setCapHeight ⟨parseFloatQ expr.dropLast, true⟩
      else ctx.setCapHeight ⟨parseFloatQ expr, false⟩
    (ctx1, consumeOptionalTerminator sc1)

/-- `parseWidth`: like `parseHeight` for the width factor. -/
def parseWidth (ctx : MTextContext) (sc : TextScanner) :
    MTextContext × TextScanner :=
  let (expr, sc1) := extractFloatExpression true sc
  if expr.isEmpty then (ctx, consumeOptionalTerminator sc1)
  else
    let ctx1 :=
      if expr.getLast? = some 'x' then
        ctx.setWidthFactor ⟨parseFloatQ expr.dropLast, true⟩
      else ctx.setWidthFactor ⟨parseFloatQ expr, false⟩
    (ctx1, consumeOptionalTerminator sc1)

/-- `parseCharTracking`: like `parseHeight` for the tracking factor,
with `Math.abs` applied before the setter (which takes the absolute
value again). -/
def parseCharTracking (ctx : MTextContext) (sc : TextScanner) :
    MTextContext × TextScanner :=
  let (expr, sc1) := extractFloatExpression true sc
  if expr.isEmpty then (ctx, consumeOptionalTerminator sc1)
  else
    let ctx1 :=
      if expr.getLast? = some 'x' then
        ctx.setCharTrackingFactor ⟨|parseFloatQ expr.dropLast|, true⟩
      else ctx.setCharTrackingFactor ⟨|parseFloatQ expr|, false⟩
    (ctx1, consumeOptionalTerminator sc1)

/-- `parseOblique`: signed float, no relative suffix, stored directly
in the `oblique` field. -/
def parseOblique (ctx : MTextContext) (sc : TextScanner) :
    MTextContext × TextScanner :=
  let (expr, sc1) := extractFloatExpression false sc
  let ctx1 := if expr.isEmpty then ctx else { ctx with oblique := parseFloatQ expr }
  (ctx1, consumeOptionalTerminator sc1)

/-- `parseAciColor`: digit run; values `< 257` are assigned through
the `aci` setter (which also clears `rgb`); the source then clears
`rgb` once more.  The `Except` propagates a setter throw, which cannot
actually happen here because the parsed value lies in `[0, 256]`. -/
def parseAciColor (ctx : MTextContext) (sc : TextScanner) :
    Except Unit (MTextContext × TextScanner) :=
  let (aciExpr, sc1) := extractIntExpression sc
  if aciExpr.isEmpty then Except.ok (ctx, consumeOptionalTerminator sc1)
  else
    let aci : ℕ := digitsToNat aciExpr
    if aci < 257 then
      match ctx.setAci (aci : ℤ) with
      | Except.ok c1 => Except.ok ({ c1 with rgb := none }, consumeOptionalTerminator sc1)
      | Except.error e => Except.error e
    else Except.ok (ctx, consumeOptionalTerminator sc1)

/-- `parseRgbColor`: digit run, masked to 24 bits (`& 0xffffff`),
unpacked by `int2rgb` and destructured as `[b, g, r]`, then stored as
`[r, g, b]`.  The stored `aci` field is not modified. -/
def parseRgbColor (ctx : MTextContext) (sc : TextScanner) :
    MTextContext × TextScanner :=
  let (rgbExpr, sc1) := extractIntExpression sc
  if rgbExpr.isEmpty then (ctx, consumeOptionalTerminator sc1)
  else
    let value := digitsToNat rgbExpr &&& 0xffffff
    let (b, g, r) := int2rgb value
    ({ ctx with rgb := some (r, g, b) }, consumeOptionalTerminator sc1)

/-- `parseFontProperties`: pipe-separated expression; the first field
is the family (required non-empty), later fields starting `b1`/`i1`
select bold/italic. -/
def parseFontProperties (ctx : MTextContext) (sc : TextScanner) :
    MTextContext × TextScanner :=
  let (expr, sc1) := extractExpression false sc
  let parts := expr.splitOn '|'
  match parts with
  | [] => (ctx, sc1)
  | name :: rest =>
    if name.isEmpty then (ctx, sc1)
    else
      let styleWeight := rest.foldl
        (fun (sw : List Char × ℕ) part =>
          if ['b', '1'].isPrefixOf part then (sw.1, 700)
          else if ['i', '1'].isPrefixOf part then ("Italic".toList, sw.2)
          else sw)
        ("Regular".toList, 400)
      ({ ctx with fontFace := ⟨name, styleWeight.1, styleWeight.2⟩ }, sc1)

/-!  Paragraph sub-grammar (`parseParagraphProperties`).  The `t`
branch's inner loop does not consume any input when the current entry
is neither numeric nor `r`/`c`-prefixed (`parseFloatValue` returns `0`
without consuming and `isNaN(0)` is false); both loops therefore carry
fuel, and `none` reports fuel exhaustion. -/

/-- `isNaN` applied to a value returned by `parseFloatValue`: that
value is either `parseFloat` of a string matched by a `\d+`-rooted
regex or the literal `0`, so it is never `NaN`. -/
def jsIsNaN (_q : ℚ) : Bool := false

/-- `parseFloatValue` local to `parseParagraphProperties`: parse the
float at the cursor (consuming it plus any following commas) or return
`0` consuming nothing. -/
def ppFloatValue (sc : TextScanner) : ℚ × TextScanner :=
  let m := matchPpFloat sc.tail
  if m.isEmpty then (0, sc)
  else
    let sc1 := sc.consume (m.length : ℤ)
    let commas := (sc1.tail.takeWhile (fun c => c = ',')).length
    (parseFloatQ m, sc1.consume (commas : ℤ))

/-- Tab-stop loop of the `t` branch: entries prefixed `r`/`c` are
tagged stops, other entries are parsed as plain numeric stops; on a
non-number the guard `!isNaN(value)` still holds for the returned `0`,
so the `else` that would consume one character is dead and the scanner
does not advance. -/
def ppTabLoop : ℕ → TextScanner → List TabStop → Option (List TabStop × TextScanner)
  | 0, _, _ => none
  | fuel + 1, sc, acc =>
    if sc.hasData then
      match sc.peek 0 with
      | some t =>
        if t = 'r' ∨ t = 'c' then
          let sc1 := sc.consume 1
          let (v, sc2) := ppFloatValue sc1
          ppTabLoop fuel sc2 (acc ++ [TabStop.tagged t v])
        else
          let (v, sc1) := ppFloatValue sc
          if jsIsNaN v then ppTabLoop fuel (sc1.consume 1) acc
          else ppTabLoop fuel sc1 (acc ++ [TabStop.plain v])
      | none => some (acc, sc)
    else some (acc, sc)

/-- Mutable locals of `parseParagraphProperties`. -/
structure PPVars where
  indent : ℚ
  left : ℚ
  right : ℚ
  align : MTextParagraphAlignment
  tabStops : List TabStop
deriving DecidableEq, Repr

/-- Main `while` of `parseParagraphProperties`: dispatch on the next
command character. -/
def ppLoop : ℕ → TextScanner → PPVars → Option (PPVars × TextScanner)
  | 0, _, _ => none
  | fuel + 1, sc, vs =>
    if sc.hasData then
      match sc.get with
      | (some cmd, sc1) =>
        if cmd = 'i' then
          let (v, sc2) := ppFloatValue sc1
          ppLoop fuel sc2 { vs with indent := v }
        else if cmd = 'l' then
          let (v, sc2) := ppFloatValue sc1
          ppLoop fuel sc2 { vs with left := v }
        else if cmd = 'r' then
          let (v, sc2) := ppFloatValue sc1
          ppLoop fuel sc2 { vs with right := v }
        else if cmd = 'x' then ppLoop fuel sc1 vs
        else if cmd = 'q' then
          let (adj, sc2) := sc1.get
          let align := (adj.bind CHAR_TO_ALIGN).getD MTextParagraphAlignment.DEFAULT
          let commas := (sc2.tail.takeWhile (fun c => c = ',')).length
          ppLoop fuel (sc2.consume (commas : ℤ)) { vs with align := align }
        else if cmd = 't' then
          match ppTabLoop fuel sc1 [] with
          | none => none
          | some (ts, sc2) => ppLoop fuel sc2 { vs with tabStops := ts }
        else ppLoop fuel sc1 vs
      | (none, _) => some (vs, sc)
    else some (vs, sc)

/-- `parseParagraphProperties`: extract the `;`-terminated expression,
run the dispatch loop over it starting from the context's current
scalar values and an empty tab-stop list, and store the result as the
new paragraph record. -/
def parseParagraphProperties (fuel : ℕ) (ctx : MTextContext) (sc : TextScanner) :
    Option (MTextContext × TextScanner) :=
  let (expr, sc1) := extractExpression false sc
  let vs0 : PPVars :=
    ⟨ctx.paragraph.indent, ctx.paragraph.left, ctx.paragraph.right,
      ctx.paragraph.align, []⟩
  match ppLoop fuel ⟨expr, 0⟩ vs0 with
  | none => none
  | some (vs, _) =>
    some ({ ctx with paragraph := ⟨vs.indent, vs.left, vs.right, vs.align, vs.tabStops⟩ }, sc1)

/-!  Property diffing and the command dispatcher. -/

/-- `getPropertyChanges(oldCtx, newCtx)`: record every field whose
value changed.  The source compares `fontFace` and `paragraph` by
`JSON.stringify` (value comparison here) and `rgb` by array identity;
value comparison is used for `rgb` as well, which coincides whenever
the two contexts come from the copy-then-mutate discipline of
`parseProperties`. -/
def getPropertyChanges (oldCtx newCtx : MTextContext) : Properties :=
  let c : Properties := {}
  let c := if oldCtx.underline ≠ newCtx.underline then
    { c with underline := some newCtx.underline } else c
  let c := if oldCtx.overline ≠ newCtx.overline then
    { c with overline := some newCtx.overline } else c
  let c := if oldCtx.strikeThrough ≠ newCtx.strikeThrough then
    { c with strikeThrough := some newCtx.strikeThrough } else c
  let c := if oldCtx.aci ≠ newCtx.aci then
    { c with aci := some newCtx.aci, rgb := some newCtx.rgb } else c
  let c := if oldCtx.rgb ≠ newCtx.rgb then
    { c with rgb := some newCtx.rgb } else c
  let c := if oldCtx.align ≠ newCtx.align then
    { c with align := some newCtx.align } else c
  let c := if oldCtx.fontFace ≠ newCtx.fontFace then
    { c with fontFace := some newCtx.fontFace } else c
  let c := if oldCtx.capHeight.value ≠ newCtx.capHeight.value ∨
      oldCtx.capHeight.isRelative ≠ newCtx.capHeight.isRelative then
    { c with capHeight := some newCtx.capHeight } else c
  let c := if oldCtx.widthFactor.value ≠ newCtx.widthFactor.value ∨
      oldCtx.widthFactor.isRelative ≠ newCtx.widthFactor.isRelative then
    { c with widthFactor := some newCtx.widthFactor } else c
  let c := if oldCtx.charTrackingFactor.value ≠ newCtx.charTrackingFactor.value ∨
      oldCtx.charTrackingFactor.isRelative ≠ newCtx.charTrackingFactor.isRelative then
    { c with charTrackingFactor := some newCtx.charTrackingFactor } else c
  let c := if oldCtx.oblique ≠ newCtx.oblique then
    { c with oblique := some newCtx.oblique } else c
  let c := if oldCtx.paragraph ≠ newCtx.paragraph then
    let pc : PartialParagraphProperties := {}
    let pc := if oldCtx.paragraph.indent ≠ newCtx.paragraph.indent then
      { pc with indent := some newCtx.paragraph.indent } else pc
    let pc := if oldCtx.paragraph.align ≠ newCtx.paragraph.align then
      { pc with align := some newCtx.paragraph.align } else pc
    let pc := if oldCtx.paragraph.left ≠ newCtx.paragraph.left then
      { pc with left := some newCtx.paragraph.left } else pc
    let pc := if oldCtx.paragraph.right ≠ newCtx.paragraph.right then
      { pc with right := some newCtx.paragraph.right } else pc
    let pc := if oldCtx.paragraph.tab_stops ≠ newCtx.paragraph.tab_stops then
      { pc with tab_stops := some newCtx.paragraph.tab_stops } else pc
    if pc = ({} : PartialParagraphProperties) then c
    else { c with paragraph := some pc }
  else c
  c

/-- State of an `MTextParser` instance: the scanner and the mutable
instance fields. -/
structure ParserState where
  scanner : TextScanner
  ctx : MTextContext
  ctxStack : List MTextContext
  continueStroke : Bool
  yieldPropertyCommands : Bool
  lastCtx : MTextContext
  inStackContext : Bool
  followupToken : Option TokenType
deriving DecidableEq, Repr

/-- `parseProperties(cmd)`: dispatch on the command letter over a copy
of the current context.  The per-case `continueStroke` updates of the
`L`/`l`/`O`/`o`/`K`/`k` branches are recorded but then overwritten by
the unconditional `this.continueStroke = newCtx.hasAnyStroke` that
follows the `switch`, exactly as in the source.  An unknown letter
throws.  The fuel is for the paragraph sub-grammar. -/
def parseProperties (fuel : ℕ) (cmd : Char) (st : ParserState) :
    JsRes (Option ChangedProperties × ParserState) :=
  let newCtx := st.ctx.copy
  let res : JsRes (MTextContext × TextScanner × Bool) :=
    if cmd = 'L' then JsRes.ok (newCtx.setUnderline true, st.scanner, true)
    else if cmd = 'l' then
      let c1 := newCtx.setUnderline false
      JsRes.ok (c1, st.scanner, if ¬ c1.hasAnyStroke then false else st.continueStroke)
    else if cmd = 'O' then JsRes.ok (newCtx.setOverline true, st.scanner, true)
    else if cmd = 'o' then
      let c1 := newCtx.setOverline false
      JsRes.ok (c1, st.scanner, if ¬ c1.hasAnyStroke then false else st.continueStroke)
    else if cmd = 'K' then JsRes.ok (newCtx.setStrikeThrough true, st.scanner, true)
    else if cmd = 'k' then
      let c1 := newCtx.setStrikeThrough false
      JsRes.ok (c1, st.scanner, if ¬ c1.hasAnyStroke then false else st.continueStroke)
    else if cmd = 'A' then
      let (c1, sc1) := parseAlign newCtx st.scanner
      JsRes.ok (c1, sc1, st.continueStroke)
    else if cmd = 'C' then
      match parseAciColor newCtx st.scanner with
      | Except.ok (c1, sc1) => JsRes.ok (c1, sc1, st.continueStroke)
      | Except.error _ => JsRes.thrown
    else if cmd = 'c' then
      let (c1, sc1) := parseRgbColor newCtx st.scanner
      JsRes.ok (c1, sc1, st.continueStroke)
    else if cmd = 'H' then
      let (c1, sc1) := parseHeight newCtx st.scanner
      JsRes.ok (c1, sc1, st.continueStroke)
    else if cmd = 'W' then
      let (c1, sc1) := parseWidth newCtx st.scanner
      JsRes.ok (c1, sc1, st.continueStroke)
    else if cmd = 'Q' then
      let (c1, sc1) := parseOblique newCtx st.scanner
      JsRes.ok (c1, sc1, st.continueStroke)
    else if cmd = 'T' then
      let (c1, sc1) := parseCharTracking newCtx st.scanner
      JsRes.ok (c1, sc1, st.continueStroke)
    else if cmd = 'p' then
      match parseParagraphProperties fuel newCtx st.scanner with
      | none => JsRes.diverge
      | some (c1, sc1) => JsRes.ok (c1, sc1, st.continueStroke)
    else if cmd = 'f' ∨ cmd = 'F' then
      let (c1, sc1) := parseFontProperties newCtx st.scanner
      JsRes.ok (c1, sc1, st.continueStroke)
    else JsRes.thrown
  match res with
  | JsRes.diverge => JsRes.diverge
  | JsRes.thrown => JsRes.thrown
  | JsRes.ok (c2, sc2, _cs) =>
    let cs := c2.hasAnyStroke
    let c3 := { c2 with continueStroke := cs }
    let st1 := { st with scanner := sc2, ctx := c3, continueStroke := cs }
    if st1.yieldPropertyCommands then
      let changes := getPropertyChanges st.lastCtx c3
      if ¬ changes.isEmptyDiff then
        JsRes.ok (some ⟨cmd, changes⟩, { st1 with lastCtx := c3.copy })
      else JsRes.ok (none, st1)
    else JsRes.ok (none, st1)

/-- Hexadecimal digit test for the `\M+XXXX` pattern
(`[0-9A-Fa-f]`). -/
def isHexDigitChar (c : Char) : Bool :=
  c.isDigit || ('a' ≤ c ∧ c ≤ 'f') || ('A' ≤ c ∧ c ≤ 'F')

/-- Modelled from the spec: the GBK decoding table lives in the
JavaScript runtime (`new TextDecoder('gbk')`), outside this
repository; the table lookup is modelled as the replacement glyph
(i.e. as a failed lookup).  No claim depends on a successful decode. -/
def gbkDecode (_bytes : List Char) : List Char := ['▯']

/-- Modelled from the spec: the BIG5 decoding table lives in the
JavaScript runtime (`new TextDecoder('big5')`), outside this
repository; modelled like `gbkDecode`. -/
def big5Decode (_bytes : List Char) : List Char := ['▯']

/-- `decodeMultiByteChar`: decode the two bytes written by the four hex
digits, trying GBK first, then BIG5, falling back to `▯` when both
decoders return the replacement glyph (the `try`/`catch` wrapper also
falls back to `▯`). -/
def decodeMultiByteChar (hex : List Char) : List Char :=
  let gbkResult := gbkDecode hex
  if gbkResult ≠ ['▯'] then gbkResult
  else
    let big5Result := big5Decode hex
    if big5Result ≠ ['▯'] then big5Result
    else ['▯']

/-- `nextToken` closure of `parse()`: produce the next
`(TokenType, TokenData)` pair, threading the parser state and the word
buffer; `none` means the fuel ran out.  Each branch mirrors one
dispatch case of the source loop; `continue` is the recursive call. -/
def nextToken : ℕ → ParserState → List Char →
    Option ((TokenType × TokenData) × ParserState)
  | 0, _, _ => none
  | fuel + 1, st, word =>
    if st.scanner.hasData then
      match st.scanner.peek 0 with
      | none => none
      | some l0 =>
        let cmdStartIndex := st.scanner.index
        if l0.toNat < 32 then
          -- control characters: consume, tab/newline are tokens, the
          -- rest becomes a space and falls into the space branch below
          -- (which consumes one further character, as the source does)
          let sc1 := st.scanner.consume 1
          if l0 = '\t' then
            some ((TokenType.TABULATOR, TokenData.null), { st with scanner := sc1 })
          else if l0 = '\n' then
            some ((TokenType.NEW_PARAGRAPH, TokenData.null), { st with scanner := sc1 })
          else
            if ¬ word.isEmpty then
              some ((TokenType.WORD, TokenData.word word),
                { st with scanner := sc1.consume 1, followupToken := some TokenType.SPACE })
            else
              some ((TokenType.SPACE, TokenData.null), { st with scanner := sc1.consume 1 })
        else if l0 = '\\' then
          let p1 := st.scanner.peek 1
          if p1 = none ∨ p1 = some '\\' ∨ p1 = some '\x7b' ∨ p1 = some '\x7d' then
            -- escape (JS `'\\{}'.includes('')` is true, hence the
            -- `none` alternative): consume the backslash, the escaped
            -- character flows to the final append
            let sc1 := st.scanner.consume 1
            let letter1 := sc1.peek 0
            nextToken fuel { st with scanner := sc1.consume 1 }
              (match letter1 with
               | some c => if 32 ≤ c.toNat then word ++ [c] else word
               | none => word)
          else
            -- command marker
            if ¬ word.isEmpty then
              some ((TokenType.WORD, TokenData.word word), st)
            else
              let sc1 := st.scanner.consume 1
              let (cmdO, sc2) := sc1.get
              match cmdO with
              | none => nextToken fuel { st with scanner := sc2 } word
              | some cmd =>
                if cmd = '~' then
                  some ((TokenType.NBSP, TokenData.null), { st with scanner := sc2 })
                else if cmd = 'P' then
                  some ((TokenType.NEW_PARAGRAPH, TokenData.null), { st with scanner := sc2 })
                else if cmd = 'N' then
                  some ((TokenType.NEW_COLUMN, TokenData.null), { st with scanner := sc2 })
                else if cmd = 'X' then
                  some ((TokenType.WRAP_AT_DIMLINE, TokenData.null), { st with scanner := sc2 })
                else if cmd = 'S' then
                  let (expr, sc3) := extractExpression true sc2
                  let (n, d, t) := parseStackingCore expr
                  some ((TokenType.STACK, TokenData.stack n d t),
                    { st with scanner := sc3, inStackContext := false })
                else if cmd = 'm' ∨ cmd = 'M' then
                  if sc2.peek 0 = some '+' then
                    let sc3 := sc2.consume 1
                    let hex := sc3.tail.take 4
                    if hex.length = 4 ∧ hex.all isHexDigitChar then
                      let sc4 := sc3.consume 4
                      let decoded := decodeMultiByteChar hex
                      if ¬ word.isEmpty then
                        some ((TokenType.WORD, TokenData.word word), { st with scanner := sc4 })
                      else
                        some ((TokenType.WORD, TokenData.word decoded), { st with scanner := sc4 })
                    else
                      nextToken fuel { st with scanner := sc3.consume (-1) }
                        (word ++ ['\\', 'M'])
                  else nextToken fuel { st with scanner := sc2 } (word ++ ['\\', 'M'])
                else
                  match parseProperties fuel cmd { st with scanner := sc2 } with
                  | JsRes.diverge => none
                  | JsRes.thrown =>
                    -- catch: the scanner has not moved past `cmd`, and
                    -- the source slices the TAIL with absolute indices
                    let commandText := jsSlice sc2.tail cmdStartIndex sc2.index
                    nextToken fuel { st with scanner := sc2 } (word ++ commandText)
                  | JsRes.ok (none, st1) => nextToken fuel st1 word
                  | JsRes.ok (some ch, st1) =>
                    if st1.yieldPropertyCommands then
                      some ((TokenType.PROPERTIES_CHANGED, TokenData.changed ch),
                        { st1 with lastCtx := st1.ctx.copy })
                    else nextToken fuel st1 word
        else if l0 = '%' ∧ st.scanner.peek 1 = some '%' then
          let code := (st.scanner.peek 2).map Char.toLower
          match code.bind SPECIAL_CHAR_ENCODING with
          | some spc =>
            nextToken fuel { st with scanner := st.scanner.consume 3 } (word ++ [spc])
          | none =>
            nextToken fuel { st with scanner := st.scanner.consume 3 } word
        else if l0 = ' ' then
          if ¬ word.isEmpty then
            some ((TokenType.WORD, TokenData.word word),
              { st with scanner := st.scanner.consume 1, followupToken := some TokenType.SPACE })
          else
            some ((TokenType.SPACE, TokenData.null), { st with scanner := st.scanner.consume 1 })
        else if l0 = '\x7b' then
          -- opening brace (never escaped on this path)
          if ¬ word.isEmpty then
            some ((TokenType.WORD, TokenData.word word), st)
          else
            nextToken fuel
              { st with scanner := st.scanner.consume 1, ctxStack := st.ctx :: st.ctxStack } word
        else if l0 = '\x7d' then
          if ¬ word.isEmpty then
            some ((TokenType.WORD, TokenData.word word), st)
          else
            match st.ctxStack with
            | c :: rest =>
              nextToken fuel
                { st with scanner := st.scanner.consume 1, ctx := c, ctxStack := rest } word
            | [] => nextToken fuel { st with scanner := st.scanner.consume 1 } word
        else if ¬ st.inStackContext ∧ l0 = '^' then
          match st.scanner.peek 1 with
          | some nc =>
            let code := nc.toNat
            let sc1 := st.scanner.consume 2
            if code = 32 then nextToken fuel { st with scanner := sc1 } (word ++ ['^'])
            else if code = 73 then
              if ¬ word.isEmpty then
                some ((TokenType.WORD, TokenData.word word), { st with scanner := sc1 })
              else some ((TokenType.TABULATOR, TokenData.null), { st with scanner := sc1 })
            else if code = 74 then
              if ¬ word.isEmpty then
                some ((TokenType.WORD, TokenData.word word), { st with scanner := sc1 })
              else some ((TokenType.NEW_PARAGRAPH, TokenData.null), { st with scanner := sc1 })
            else if code = 77 then nextToken fuel { st with scanner := sc1 } word
            else nextToken fuel { st with scanner := sc1 } (word ++ ['▯'])
          | none =>
            -- caret at the very end: falls to the default append
            nextToken fuel { st with scanner := st.scanner.consume 1 } (word ++ ['^'])
        else
          nextToken fuel { st with scanner := st.scanner.consume 1 }
            (if 32 ≤ l0.toNat then word ++ [l0] else word)
    else
      if ¬ word.isEmpty then some ((TokenType.WORD, TokenData.word word), st)
      else some ((TokenType.NONE, TokenData.null), st)

/-- Generator loop of `parse()`: pull tokens until `NONE`, attaching
the current context snapshot to each, and emitting the deferred
`SPACE` follow-up token when one is pending. -/
def parseLoop : ℕ → ParserState → Option (List MTextToken)
  | 0, _ => none
  | fuel + 1, st =>
    match nextToken (fuel + 1) st [] with
    | none => none
    | some ((type, data), st1) =>
      if type = TokenType.NONE then some []
      else
        let toks : List MTextToken := [⟨type, st1.ctx, data⟩]
        let (toks, st2) :=
          match st1.followupToken with
          | some ft => (toks ++ [⟨ft, st1.ctx, TokenData.null⟩],
              { st1 with followupToken := none })
          | none => (toks, st1)
        match parseLoop fuel st2 with
        | none => none
        | some rest => some (toks ++ rest)

/-- Whole-parser entry point: `new MTextParser(content, ctx, ypc)`
followed by exhausting the `parse()` generator.  `none` reports that
some loop in the parser failed to terminate within `fuel` steps; a
`some` result is the complete finite token sequence. -/
def parseMText (content : List Char) (ctx0 : MTextContext)
    (ypc : Bool) (fuel : ℕ) : Option (List MTextToken) :=
  parseLoop fuel
    { scanner := ⟨content, 0⟩
      ctx := ctx0
      ctxStack := []
      continueStroke := false
      yieldPropertyCommands := ypc
      lastCtx := ctx0.copy
      inStackContext := false
      followupToken := none }

/-!  Reference-level model of `MTextContext.copy()` and of the
parser's writes to the array-valued context members.  The value model
above cannot express JS object aliasing, so the three reference-typed
members reachable from a context — the `fontFace` object, the
`paragraph.tab_stops` array and the `rgb` array (or null) — are
modelled with an explicit heap.  `copy()` allocates a fresh `fontFace`
cell (`{ ...this.fontFace }`), but `{ ...this.paragraph }` copies the
`tab_stops` field — the array reference — and `ctx.rgb = this.rgb`
copies the rgb reference, so the copy shares both arrays with the
original.

The source writes these members at exactly these places, all of which
either allocate a fresh object and repoint the member, or repoint it
to null — none writes into an existing array:
* `ctx.rgb = [r, g, b]` in `parseRgbColor` (a fresh array);
* `ctx.rgb = null` in `parseAciColor` and in the `aci` setter;
* `ctx.paragraph = { indent, …, tab_stops: tabStops }` in
  `parseParagraphProperties` (a fresh record whose `tab_stops` is the
  loop's freshly built local array — the `tabStops.push` calls happen
  before that array is reachable from any context);
* `ctx.fontFace = { family, style, weight }` in `parseFontProperties`
  (a fresh object).
Each write is modelled below, and the claim theorems prove the frame
property: a reference held before such a write (for instance by an
already-emitted token's snapshot) observes an unchanged value after
it. -/

/-- Heap holding the allocated `fontFace` objects, `tab_stops` arrays
and `rgb` arrays, addressed by allocation index per store. -/
structure JsHeap where
  fontFaces : List FontFace
  tabArrays : List (List TabStop)
  rgbArrays : List (List ℕ)
deriving DecidableEq, Repr

/-- Reference-typed portion of an `MTextContext`: the addresses of its
`fontFace` object, of its `paragraph.tab_stops` array, and of its
`rgb` array (`none` models the null rgb).  All other members are
primitives copied by value by `copy()`. -/
structure MTextContextRef where
  fontFaceAddr : ℕ
  tabStopsAddr : ℕ
  rgbAddr : Option ℕ
deriving DecidableEq, Repr

/-- Dereference the context's `fontFace` object. -/
def readFontFace (h : JsHeap) (c : MTextContextRef) : FontFace :=
  h.fontFaces.getD c.fontFaceAddr ⟨[], [], 400⟩

/-- Dereference the context's `paragraph.tab_stops` array. -/
def readTabStops (h : JsHeap) (c : MTextContextRef) : List TabStop :=
  h.tabArrays.getD c.tabStopsAddr []

/-- Dereference the context's `rgb` array; `none` when the member is
null. -/
def readRgb (h : JsHeap) (c : MTextContextRef) : Option (List ℕ) :=
  c.rgbAddr.map (fun a => h.rgbArrays.getD a [])

/-- `copy()` at the reference level: `ctx.fontFace = {...this.fontFace}`
allocates a fresh cell with the same contents, while
`ctx.paragraph = {...this.paragraph}` copies the `tab_stops` reference
and `ctx.rgb = this.rgb` copies the rgb reference unchanged. -/
def copyRef (h : JsHeap) (c : MTextContextRef) : JsHeap × MTextContextRef :=
  ({ h with fontFaces := h.fontFaces ++ [readFontFace h c] },
   { fontFaceAddr := h.fontFaces.length, tabStopsAddr := c.tabStopsAddr,
     rgbAddr := c.rgbAddr })

/-- Mutation `ctx.fontFace.family = fam` through a reference (not
performed by the parser; used to exhibit what sharing would mean). -/
def setFontFamily (h : JsHeap) (addr : ℕ) (fam : List Char) : JsHeap :=
  { h with fontFaces :=
      h.fontFaces.set addr { h.fontFaces.getD addr ⟨[], [], 400⟩ with family := fam } }

/-- Mutation `ctx.paragraph.tab_stops.push(v)` through a reference (not
performed by the parser on a context-reachable array; used to exhibit
the sharing created by `copy()`). -/
def pushTabStop (h : JsHeap) (addr : ℕ) (v : TabStop) : JsHeap :=
  { h with tabArrays := h.tabArrays.set addr (h.tabArrays.getD addr [] ++ [v]) }

/-- `ctx.rgb = [r, g, b]` in `parseRgbColor`: allocate a fresh array
holding `v` and repoint the context's rgb reference to it. -/
def assignRgbRef (h : JsHeap) (c : MTextContextRef) (v : List ℕ) :
    JsHeap × MTextContextRef :=
  ({ h with rgbArrays := h.rgbArrays ++ [v] },
   { c with rgbAddr := some h.rgbArrays.length })

/-- `ctx.rgb = null` in `parseAciColor` and in the `aci` setter:
repoint the reference to null; the heap is untouched. -/
def clearRgbRef (h : JsHeap) (c : MTextContextRef) : JsHeap × MTextContextRef :=
  (h, { c with rgbAddr := none })

/-- `ctx.paragraph = { …, tab_stops: tabStops }` in
`parseParagraphProperties`: the paragraph record is fresh and its
`tab_stops` is the freshly built local array, so the write allocates a
new array cell and repoints the context's reference. -/
def assignTabStopsRef (h : JsHeap) (c : MTextContextRef) (ts : List TabStop) :
    JsHeap × MTextContextRef :=
  ({ h with tabArrays := h.tabArrays ++ [ts] },
   { c with tabStopsAddr := h.tabArrays.length })

/-- `ctx.fontFace = { family, style, weight }` in
`parseFontProperties`: allocate a fresh object and repoint. -/
def assignFontFaceRef (h : JsHeap) (c : MTextContextRef) (ff : FontFace) :
    JsHeap × MTextContextRef :=
  ({ h with fontFaces := h.fontFaces ++ [ff] },
   { c with fontFaceAddr := h.fontFaces.length })

/-- Parser state reached while parsing the input `\pta;` with the
default context, at scanner index `i`. -/
def ptaState (i : ℕ) : ParserState :=
  { scanner := ⟨"\\pta;".toList, i⟩, ctx := MTextContext.default,
    ctxStack := [], continueStroke := false, yieldPropertyCommands := false,
    lastCtx := MTextContext.default, inStackContext := false, followupToken := none }

/-- Parser state reached while parsing `%%` followed by the character
`ch` and the literal text `Text`, at scanner index `i`. -/
def percentState (ch : Char) (i : ℕ) : ParserState :=
  { scanner := ⟨'%' :: '%' :: ch :: "Text".toList, i⟩, ctx := MTextContext.default,
    ctxStack := [], continueStroke := false, yieldPropertyCommands := false,
    lastCtx := MTextContext.default, inStackContext := false, followupToken := none }

/-!  Theorems.  Shared helper lemmas come first, then one theorem per
claim (with its witness or counterexample where required). -/

/-- Characters are determined by their code points. -/
theorem char_eq_ofNat_of_toNat_eq {c : Char} {n : ℕ} (h : c.toNat = n) :
    c = Char.ofNat n := by
  rw [← h, Char.ofNat_toNat]

/-- A character that is none of `c`/`C`, `d`/`D`, `p`/`P` is missing
from `SPECIAL_CHAR_ENCODING` after lower-casing. -/
theorem specialCharEncoding_toLower_eq_none {ch : Char} (h1 : ch ≠ 'c') (h2 : ch ≠ 'C')
    (h3 : ch ≠ 'd') (h4 : ch ≠ 'D') (h5 : ch ≠ 'p') (h6 : ch ≠ 'P') :
    SPECIAL_CHAR_ENCODING ch.toLower = none := by
  by_cases h65 : 65 ≤ ch.toNat ∧ ch.toNat ≤ 90
  · have hlow : ch.toLower = Char.ofNat (ch.toNat + 32) := by
      simp [Char.toLower, h65]
    obtain ⟨ha, hb⟩ := h65
    obtain ⟨n, hn⟩ : ∃ n, ch.toNat = n := ⟨_, rfl⟩
    rw [hn] at ha hb hlow
    rw [hlow]
    interval_cases n
    all_goals try decide
    all_goals
      (exfalso ; revert h2 h4 h6 ; rw [char_eq_ofNat_of_toNat_eq hn] ; decide)
  · have hlow : ch.toLower = ch := by
      simp [Char.toLower]
      omega
    rw [hlow]
    simp [SPECIAL_CHAR_ENCODING, h1, h3, h5]

/-- Unfolding equation of `parseLoop` at positive fuel. -/
theorem parseLoop_succ (fuel : ℕ) (st : ParserState) :
    parseLoop (fuel + 1) st =
      match nextToken (fuel + 1) st [] with
      | none => none
      | some ((type, data), st1) =>
        if type = TokenType.NONE then some []
        else
          let toks : List MTextToken := [⟨type, st1.ctx, data⟩]
          let (toks, st2) :=
            match st1.followupToken with
            | some ft => (toks ++ [⟨ft, st1.ctx, TokenData.null⟩],
                { st1 with followupToken := none })
            | none => (toks, st1)
          match parseLoop fuel st2 with
          | none => none
          | some rest => some (toks ++ rest) := rfl

/-- The tab-stop loop never advances on the expression suffix `a`:
`parseFloatValue` finds no number, returns `0` without consuming, and
`isNaN(0)` is false, so every fuel amount is exhausted. -/
theorem ppTabLoop_ta_diverges : ∀ (f : ℕ) (acc : List TabStop),
    ppTabLoop f ⟨"ta".toList, 1⟩ acc = none := by
  intro f
  induction f with
  | zero => intro acc; rfl
  | succ g ih =>
    intro acc
    show ppTabLoop g ⟨"ta".toList, 1⟩ (acc ++ [TabStop.plain 0]) = none
    exact ih _

/-- The paragraph-property dispatch loop on the expression `ta`
diverges through its `t` branch. -/
theorem ppLoop_ta_diverges : ∀ f : ℕ,
    ppLoop f ⟨"ta".toList, 0⟩ ⟨0, 0, 0, MTextParagraphAlignment.DEFAULT, []⟩ = none := by
  intro f
  cases f with
  | zero => rfl
  | succ g =>
    show (match ppTabLoop g ⟨"ta".toList, 1⟩ [] with
          | none => none
          | some (ts, sc2) =>
            ppLoop g sc2 { (⟨0, 0, 0, MTextParagraphAlignment.DEFAULT, []⟩ : PPVars) with
              tabStops := ts }) = none
    rw [ppTabLoop_ta_diverges g]

/-- `parseParagraphProperties` on the scanner positioned after `\p` in
`\pta;` diverges for every fuel amount. -/
theorem parsePP_ta_diverges : ∀ f : ℕ,
    parseParagraphProperties f MTextContext.default ⟨"\\pta;".toList, 2⟩ = none := by
  intro f
  show (match ppLoop f ⟨"ta".toList, 0⟩ ⟨0, 0, 0, MTextParagraphAlignment.DEFAULT, []⟩ with
        | none => none
        | some (vs, _) =>
          some (({ MTextContext.default with
            paragraph := ⟨vs.indent, vs.left, vs.right, vs.align, vs.tabStops⟩ } : MTextContext),
            (⟨"\\pta;".toList, 5⟩ : TextScanner))) = none
  rw [ppLoop_ta_diverges f]

/-- The `p` property command in `\pta;` diverges. -/
theorem parseProps_pta_diverges : ∀ f : ℕ,
    parseProperties f 'p' (ptaState 2) = JsRes.diverge := by
  intro f
  show (match (match parseParagraphProperties f MTextContext.default ⟨"\\pta;".toList, 2⟩ with
               | none => JsRes.diverge
               | some (c1, sc1) => JsRes.ok (c1, sc1, false)) with
        | JsRes.diverge => JsRes.diverge
        | JsRes.thrown => JsRes.thrown
        | JsRes.ok (c2, sc2, _cs) =>
          let cs := c2.hasAnyStroke
          let c3 := { c2 with continueStroke := cs }
          let st1 := { ptaState 2 with scanner := sc2, ctx := c3, continueStroke := cs }
          if st1.yieldPropertyCommands then
            let changes := getPropertyChanges (ptaState 2).lastCtx c3
            if ¬ changes.isEmptyDiff then
              JsRes.ok (some (⟨'p', changes⟩ : ChangedProperties), { st1 with lastCtx := c3.copy })
            else JsRes.ok (none, st1)
          else JsRes.ok (none, st1)) = JsRes.diverge
  rw [parsePP_ta_diverges f]

/-- Token production on `\pta;` exhausts any amount of fuel. -/
theorem nextToken_pta_diverges : ∀ g : ℕ, nextToken (g + 1) (ptaState 0) [] = none := by
  intro g
  show (match parseProperties g 'p' (ptaState 2) with
        | JsRes.diverge => none
        | JsRes.thrown =>
          nextToken g (ptaState 2)
            ([] ++ jsSlice (TextScanner.tail ⟨"\\pta;".toList, 2⟩) 0 2)
        | JsRes.ok (none, st1) => nextToken g st1 []
        | JsRes.ok (some ch, st1) =>
          if st1.yieldPropertyCommands then
            some ((TokenType.PROPERTIES_CHANGED, TokenData.changed ch),
              { st1 with lastCtx := st1.ctx.copy })
          else nextToken g st1 []) = none
  rw [parseProps_pta_diverges g]

/-- C1: the claim states that `parse()` terminates on every finite
input; the code does not.  On the input `\pta;` the tab-stop branch of
`parseParagraphProperties` loops forever (its `parseFloatValue` returns
`0` without consuming anything and `!isNaN(0)` always holds, so the
scanner never advances): the fuel-indexed embedding returns `none` —
fuel exhausted — for every fuel amount, exhibiting the divergence. -/
theorem C1_parse_pta_diverges : ∀ fuel : ℕ,
    parseMText "\\pta;".toList MTextContext.default false fuel = none := by
  intro fuel
  cases fuel with
  | zero => rfl
  | succ g =>
    show parseLoop (g + 1) (ptaState 0) = none
    rw [parseLoop_succ, nextToken_pta_diverges g]

/-- C2: the claim (and the spec) says the two consumed characters of an
unknown command are re-emitted as literal word text.  The code instead
computes the re-emitted slice from `scanner.tail` using absolute
indices, so for the input `\z` the slice is empty and the parse yields
no token at all — the backslash and the letter are silently dropped —
and for `\zABC` the mix-up duplicates following text into `ABABC`
instead of producing `\zABC`. -/
theorem C2_unknown_command_dropped :
    parseMText "\\z".toList MTextContext.default false 300 = some [] ∧
    parseMText "\\zABC".toList MTextContext.default false 300 =
      some [⟨TokenType.WORD, MTextContext.default, TokenData.word "ABABC".toList⟩] :=
  ⟨rfl, rfl⟩

/-- C3 counterexample: the claim names the diameter glyph `⌀` (U+2300),
but the source's `SPECIAL_CHAR_ENCODING` maps `c` to `Ø` (U+00D8), so
the emitted word is not `⌀°±Text`. -/
theorem C3_counterexample :
    parseMText "%%c%%d%%pText".toList MTextContext.default false 300 ≠
      some [⟨TokenType.WORD, MTextContext.default, TokenData.word "⌀°±Text".toList⟩] := by
  decide

/-- C3 (amended): parsing `%%c%%d%%pText` from the default context
yields exactly one WORD token `Ø°±Text` (with `Ø` U+00D8) and no
changed context; and for any third character other than `c`/`C`,
`d`/`D`, `p`/`P` the three-character `%%x` sequence is consumed
producing nothing. -/
theorem C3_percent_codes_amended :
    parseMText "%%c%%d%%pText".toList MTextContext.default false 300 =
      some [⟨TokenType.WORD, MTextContext.default, TokenData.word "Ø°±Text".toList⟩] ∧
    ∀ (ch : Char) (f : ℕ), ch ≠ 'c' → ch ≠ 'C' → ch ≠ 'd' → ch ≠ 'D' →
      ch ≠ 'p' → ch ≠ 'P' →
      parseMText ('%' :: '%' :: ch :: "Text".toList) MTextContext.default false (f + 7) =
        some [⟨TokenType.WORD, MTextContext.default, TokenData.word "Text".toList⟩] := by
  constructor
  · rfl
  · intro ch f h1 h2 h3 h4 h5 h6
    have hnone : SPECIAL_CHAR_ENCODING ch.toLower = none :=
      specialCharEncoding_toLower_eq_none h1 h2 h3 h4 h5 h6
    have hnt : nextToken (f + 7) (percentState ch 0) [] =
        some ((TokenType.WORD, TokenData.word "Text".toList), percentState ch 7) := by
      have hstep : nextToken (f + 7) (percentState ch 0) [] =
          nextToken (f + 6) (percentState ch 3) [] := by
        show (match SPECIAL_CHAR_ENCODING ch.toLower with
              | some spc => nextToken (f + 6) (percentState ch 3) ([] ++ [spc])
              | none => nextToken (f + 6) (percentState ch 3) []) =
            nextToken (f + 6) (percentState ch 3) []
        rw [hnone]
      rw [hstep]; rfl
    show parseLoop (f + 7) (percentState ch 0) = _
    rw [show f + 7 = (f + 6) + 1 from rfl, parseLoop_succ, hnt]
    rfl

/-- C3 witness: the amended statement applied to the third character
`x` (which is none of the recognised codes) at fuel `0 + 7`. -/
theorem C3_percent_codes_witness :
    parseMText ('%' :: '%' :: 'x' :: "Text".toList) MTextContext.default false (0 + 7) =
      some [⟨TokenType.WORD, MTextContext.default, TokenData.word "Text".toList⟩] :=
  C3_percent_codes_amended.2 'x' 0 (by decide) (by decide) (by decide) (by decide)
    (by decide) (by decide)

/-- C4 counterexample: after `\C1;` (indexed colour 1) the command
`\c255;` stores the RGB triple but does not clear the stored indexed
colour, which still holds `1` — the claim's "stores the RGB triple AND
clears the indexed color" fails on the second half. -/
theorem C4_counterexample :
    parseMText "\\C1;\\c255;X".toList MTextContext.default false 300 =
      some [⟨TokenType.WORD,
        { MTextContext.default with aci := 1, rgb := some (0, 0, 255) },
        TokenData.word ['X']⟩] := rfl

/-- C4 (amended): `\c` stores the digit run masked to 24 bits as the
RGB triple (splitting `int2rgb`'s low/mid/high bytes in the source's
swapped order) and leaves the stored indexed colour untouched; only
the `aci` setter clears the RGB triple (to `null`), so RGB and indexed
colour are mutually exclusive in the sense that a non-null `rgb` field
designates the RGB colour as active. -/
theorem C4_rgb_aci_amended :
    (∀ (ctx : MTextContext) (sc : TextScanner),
      ((parseRgbColor ctx sc).1).aci = ctx.aci) ∧
    (∀ (ctx : MTextContext) (v : ℤ) (c2 : MTextContext),
      ctx.setAci v = Except.ok c2 → c2.rgb = none) ∧
    parseRgbColor MTextContext.default ⟨"255;".toList, 0⟩ =
      ({ MTextContext.default with rgb := some (0, 0, 255) }, ⟨"255;".toList, 4⟩) := by
  refine ⟨?_, ?_, ?_⟩
  · intro ctx sc
    unfold parseRgbColor
    generalize extractIntExpression sc = p
    obtain ⟨rgbExpr, sc1⟩ := p
    dsimp only
    split_ifs <;> rfl
  · intro ctx v c2 h
    unfold MTextContext.setAci at h
    split_ifs at h with hv
    simp only [Except.ok.injEq] at h
    subst h
    rfl
  · rfl

/-- C4 witness: the amended statement applied to the default context —
`\c255;` leaves the stored indexed colour at `7`, and a successful
`aci := 5` assignment clears `rgb`. -/
theorem C4_rgb_aci_witness :
    ((parseRgbColor MTextContext.default ⟨"255;".toList, 0⟩).1).aci =
      MTextContext.default.aci ∧
    ({ MTextContext.default with aci := 5, rgb := none } : MTextContext).rgb = none :=
  ⟨C4_rgb_aci_amended.1 MTextContext.default ⟨"255;".toList, 0⟩,
   C4_rgb_aci_amended.2.1 MTextContext.default 5 _ rfl⟩

/-- C5: the worked stacking examples hold exactly as the spec states:
`\S1/2;` gives `("1","2","/")`; `\S1^ 2;` gives `("1","2","^")` with
the space after the caret divider stripped; `\S\N^ \P;` gives
`("N","P","^")` with the backslash-escaped characters stripped to
their bare characters. -/
theorem C5_stacking_examples :
    parseMText "\\S1/2;".toList MTextContext.default false 300 =
      some [⟨TokenType.STACK, MTextContext.default, TokenData.stack ['1'] ['2'] ['/']⟩] ∧
    parseMText "\\S1^ 2;".toList MTextContext.default false 300 =
      some [⟨TokenType.STACK, MTextContext.default, TokenData.stack ['1'] ['2'] ['^']⟩] ∧
    parseMText "\\S\\N^ \\P;".toList MTextContext.default false 300 =
      some [⟨TokenType.STACK, MTextContext.default, TokenData.stack ['N'] ['P'] ['^']⟩] :=
  ⟨rfl, rfl, rfl⟩

/-- C6 counterexample: on the text `\;` the escape-aware `find(';')`
returns position `1` — the position of the semicolon immediately
preceded by a backslash — contradicting the claim that `find` never
reports such a position. -/
theorem C6_counterexample :
    TextScanner.find ⟨['\\', ';'], 0⟩ ';' true = some 1 ∧
    ['\\', ';'].get? 0 = some '\\' := by decide

/-- Escape-aware `findLoop` hops over a backslash pair whose second
character is not the target. -/
theorem findLoop_skips_pair (tgt y : Char) (rest : List Char) (i : ℕ) (hy : y ≠ tgt) :
    TextScanner.findLoop tgt true ('\\' :: y :: rest) i =
      TextScanner.findLoop tgt true rest (i + 2) := by
  conv_lhs => unfold TextScanner.findLoop
  rw [if_pos ⟨rfl, rfl⟩]
  exact if_neg hy

/-- A character that is neither the target nor a backslash is passed
over by escape-aware `findLoop`. -/
theorem findLoop_cons_skip (tgt x : Char) (L : List Char) (i : ℕ)
    (h1 : x ≠ '\\') (h2 : x ≠ tgt) :
    TextScanner.findLoop tgt true (x :: L) i = TextScanner.findLoop tgt true L (i + 1) := by
  conv_lhs => unfold TextScanner.findLoop
  rw [if_neg (by simp [h1]), if_neg h2]

/-- C6 (amended): with the escape flag set, `find` skips a backslash
together with the following character when that character is not the
target, but when a backslash immediately precedes the target it
returns the target's position (the caller inspects the preceding
character to recognise the escape); in particular, over a prefix free
of targets and backslashes, `find` returns the position of the
escaped target right after the backslash. -/
theorem C6_find_escape_amended :
    (∀ (tgt y : Char) (rest : List Char) (i : ℕ), y ≠ tgt →
      TextScanner.findLoop tgt true ('\\' :: y :: rest) i =
        TextScanner.findLoop tgt true rest (i + 2)) ∧
    (∀ (tgt : Char) (rest : List Char) (i : ℕ),
      TextScanner.findLoop tgt true ('\\' :: tgt :: rest) i = some (i + 1)) ∧
    (∀ (pre : List Char) (tgt : Char) (rest : List Char),
      (∀ x ∈ pre, x ≠ tgt ∧ x ≠ '\\') →
      TextScanner.find ⟨pre ++ '\\' :: tgt :: rest, 0⟩ tgt true = some (pre.length + 1)) := by
  refine ⟨findLoop_skips_pair, ?_, ?_⟩
  · intro tgt rest i
    simp [TextScanner.findLoop]
  · intro pre tgt rest h
    show TextScanner.findLoop tgt true ((pre ++ '\\' :: tgt :: rest).drop 0) 0 =
      some (pre.length + 1)
    rw [List.drop_zero]
    have key : ∀ (p : List Char) (i : ℕ), (∀ x ∈ p, x ≠ tgt ∧ x ≠ '\\') →
        TextScanner.findLoop tgt true (p ++ '\\' :: tgt :: rest) i =
          some (i + p.length + 1) := by
      intro p
      induction p with
      | nil =>
        intro i _
        simp [TextScanner.findLoop]
      | cons x xs ih =>
        intro i hp
        have hx := hp x (List.mem_cons_self x xs)
        have hrec := ih (i + 1) (fun y hy => hp y (List.mem_cons_of_mem x hy))
        rw [List.cons_append, findLoop_cons_skip tgt x _ i hx.2 hx.1, hrec]
        simp
        omega
    have := key pre 0 h
    simpa using this

/-- C6 witness: the amended statement applied to `Hello\;World` (the
scenario of the repository's own unit test): the escaped semicolon is
reported at position `6`. -/
theorem C6_find_escape_witness :
    TextScanner.find ⟨"Hello".toList ++ '\\' :: ';' :: "World".toList, 0⟩ ';' true =
      some 6 := by
  have := C6_find_escape_amended.2.2 "Hello".toList ';' "World".toList (by decide)
  simpa using this

/-- C7 counterexample: starting from a heap with one context whose
`tab_stops` array is empty, `copy()` produces a context whose
`tab_stops` field is the same array reference, so pushing a tab stop
through the copy changes the list observed through the original — the
claimed deep, independent snapshot does not hold for the tab-stop
list. -/
theorem C7_counterexample :
    readTabStops
      (pushTabStop (copyRef ⟨[⟨[], "Regular".toList, 400⟩], [[]], []⟩ ⟨0, 0, none⟩).1
        (copyRef ⟨[⟨[], "Regular".toList, 400⟩], [[]], []⟩ ⟨0, 0, none⟩).2.tabStopsAddr
        (TabStop.plain 1)) ⟨0, 0, none⟩ ≠
    readTabStops (copyRef ⟨[⟨[], "Regular".toList, 400⟩], [[]], []⟩ ⟨0, 0, none⟩).1
      ⟨0, 0, none⟩ := by
  decide

/-- C7 (amended): `copy()` copies every value field (the value-level
copy is the identity snapshot) and allocates a fresh `fontFace`
object — mutating the copy's font face leaves the original's view
unchanged — but it shares both the `paragraph.tab_stops` array and the
`rgb` array by reference with the original.  However, every write the
parser performs to an array-valued context member (the four write
sites modelled by `assignRgbRef`, `clearRgbRef`, `assignTabStopsRef`
and `assignFontFaceRef`) only allocates a fresh cell or repoints to
null and satisfies the frame property: any reference held beforehand —
in particular one inside the snapshot attached to an already-emitted
token — observes an unchanged value afterwards, so later parsing
never mutates an emitted token's context. -/
theorem C7_copy_amended :
    (∀ cx : MTextContext, cx.copy = cx) ∧
    (∀ (h : JsHeap) (c : MTextContextRef) (fam : List Char),
      c.fontFaceAddr < h.fontFaces.length →
      readFontFace (setFontFamily (copyRef h c).1 (copyRef h c).2.fontFaceAddr fam) c =
        readFontFace h c) ∧
    (∀ (h : JsHeap) (c : MTextContextRef),
      (copyRef h c).2.tabStopsAddr = c.tabStopsAddr ∧
      (copyRef h c).2.rgbAddr = c.rgbAddr) ∧
    (∀ (h : JsHeap) (c old : MTextContextRef) (v : List ℕ),
      readTabStops (assignRgbRef h c v).1 old = readTabStops h old ∧
      readFontFace (assignRgbRef h c v).1 old = readFontFace h old ∧
      (∀ a, old.rgbAddr = some a → a < h.rgbArrays.length →
        readRgb (assignRgbRef h c v).1 old = readRgb h old)) ∧
    (∀ (h : JsHeap) (c old : MTextContextRef) (ts : List TabStop),
      readRgb (assignTabStopsRef h c ts).1 old = readRgb h old ∧
      readFontFace (assignTabStopsRef h c ts).1 old = readFontFace h old ∧
      (old.tabStopsAddr < h.tabArrays.length →
        readTabStops (assignTabStopsRef h c ts).1 old = readTabStops h old)) ∧
    (∀ (h : JsHeap) (c old : MTextContextRef) (ff : FontFace),
      readRgb (assignFontFaceRef h c ff).1 old = readRgb h old ∧
      readTabStops (assignFontFaceRef h c ff).1 old = readTabStops h old ∧
      (old.fontFaceAddr < h.fontFaces.length →
        readFontFace (assignFontFaceRef h c ff).1 old = readFontFace h old)) ∧
    (∀ (h : JsHeap) (c : MTextContextRef), (clearRgbRef h c).1 = h) := by
  refine ⟨fun cx => rfl, ?_, fun h c => ⟨rfl, rfl⟩, ?_, ?_, ?_, fun h c => rfl⟩
  · intro h c fam hvalid
    simp only [readFontFace, setFontFamily, copyRef, List.getD_eq_getElem?_getD]
    rw [List.getElem?_set_ne (by omega)]
    rw [List.getElem?_append_left hvalid]
  · intro h c old v
    refine ⟨rfl, rfl, ?_⟩
    intro a ha hlt
    simp only [readRgb, ha, Option.map_some', assignRgbRef,
      List.getD_eq_getElem?_getD]
    rw [List.getElem?_append_left hlt]
  · intro h c old ts
    refine ⟨rfl, rfl, ?_⟩
    intro hlt
    simp only [readTabStops, assignTabStopsRef, List.getD_eq_getElem?_getD]
    rw [List.getElem?_append_left hlt]
  · intro h c old ff
    refine ⟨rfl, rfl, ?_⟩
    intro hlt
    simp only [readFontFace, assignFontFaceRef, List.getD_eq_getElem?_getD]
    rw [List.getElem?_append_left hlt]

/-- C7 witness: the amended statement applied to a one-context heap:
mutating the family to `Arial` through the copy leaves the original's
font face unchanged, and `parseRgbColor`'s fresh-array rgb assignment
leaves the rgb triple observed through an older reference unchanged. -/
theorem C7_copy_witness :
    (readFontFace
      (setFontFamily
        (copyRef ⟨[⟨[], "Regular".toList, 400⟩], [[]], [[1, 2, 3]]⟩ ⟨0, 0, some 0⟩).1
        (copyRef ⟨[⟨[], "Regular".toList, 400⟩], [[]], [[1, 2, 3]]⟩
          ⟨0, 0, some 0⟩).2.fontFaceAddr
        "Arial".toList) ⟨0, 0, some 0⟩ =
      readFontFace ⟨[⟨[], "Regular".toList, 400⟩], [[]], [[1, 2, 3]]⟩ ⟨0, 0, some 0⟩) ∧
    readRgb
      (assignRgbRef ⟨[⟨[], "Regular".toList, 400⟩], [[]], [[1, 2, 3]]⟩ ⟨0, 0, some 0⟩
        [4, 5, 6]).1 ⟨0, 0, some 0⟩ =
      readRgb ⟨[⟨[], "Regular".toList, 400⟩], [[]], [[1, 2, 3]]⟩ ⟨0, 0, some 0⟩ :=
  ⟨C7_copy_amended.2.1 ⟨[⟨[], "Regular".toList, 400⟩], [[]], [[1, 2, 3]]⟩ ⟨0, 0, some 0⟩
      "Arial".toList (by decide),
   (C7_copy_amended.2.2.2.1 ⟨[⟨[], "Regular".toList, 400⟩], [[]], [[1, 2, 3]]⟩
      ⟨0, 0, some 0⟩ ⟨0, 0, some 0⟩ [4, 5, 6]).2.2 0 rfl (by decide)⟩

/-- C8: assigning the indexed colour errors exactly when the value is
outside `[0, 256]` (the throw happens before any field assignment, so
a failing call leaves the context as it was — the `Except.error`
result carries no modified state); a successful assignment stores the
value, clears the RGB triple to `null`, and changes no other field.
The `aci` setter is the only context operation embedded in `Except`;
every other setter is a total function. -/
theorem C8_aci_setter : ∀ (c : MTextContext) (v : ℤ),
    (c.setAci v = Except.error () ↔ v < 0 ∨ 256 < v) ∧
    (∀ c2, c.setAci v = Except.ok c2 →
      c2.aci = v ∧ c2.rgb = none ∧ c2.stroke = c.stroke ∧
      c2.continueStroke = c.continueStroke ∧ c2.align = c.align ∧
      c2.fontFace = c.fontFace ∧ c2.capHeight = c.capHeight ∧
      c2.widthFactor = c.widthFactor ∧ c2.charTrackingFactor = c.charTrackingFactor ∧
      c2.oblique = c.oblique ∧ c2.paragraph = c.paragraph) := by
  intro c v
  unfold MTextContext.setAci
  constructor
  · split_ifs with h
    · exact ⟨fun hh => hh.elim, fun hh => absurd h (by omega)⟩
    · exact ⟨fun _ => by omega, fun _ => rfl⟩
  · intro c2 h2
    split_ifs at h2 with h
    simp only [Except.ok.injEq] at h2
    subst h2
    exact ⟨rfl, rfl, rfl, rfl, rfl, rfl, rfl, rfl, rfl, rfl, rfl⟩

/-- C8 witness: the setter applied at `300` (out of range, errors) and
at `5` (in range, stores `5`). -/
theorem C8_aci_setter_witness :
    MTextContext.default.setAci 300 = Except.error () ∧
    ({ MTextContext.default with aci := 5, rgb := none } : MTextContext).aci = 5 :=
  ⟨(C8_aci_setter MTextContext.default 300).1.mpr (by decide),
   ((C8_aci_setter MTextContext.default 5).2 _ rfl).1⟩

/-- Packing characterisation of `rgb2int` for byte components. -/
theorem rgb2int_eq (r g b : ℕ) (hr : r ≤ 255) (hg : g ≤ 255) :
    rgb2int (r, g, b) = b * 65536 + g * 256 + r := by
  show (b <<< 16) ||| (g <<< 8) ||| r = b * 65536 + g * 256 + r
  rw [Nat.shiftLeft_eq, Nat.shiftLeft_eq, Nat.lor_assoc]
  have h1 : g * 2 ^ 8 ||| r = g * 2 ^ 8 + r := by
    rw [Nat.mul_comm g (2 ^ 8), ← Nat.mul_add_lt_is_or (by omega) g,
      Nat.mul_comm (2 ^ 8) g]
  rw [h1]
  have h2 : g * 2 ^ 8 + r < 2 ^ 16 := by
    have : g * 2 ^ 8 ≤ 255 * 2 ^ 8 := Nat.mul_le_mul_right _ hg
    omega
  rw [Nat.mul_comm b (2 ^ 16), ← Nat.mul_add_lt_is_or h2 b]
  ring

/-- C9: `int2rgb` inverts `rgb2int` on byte triples, and the packed
integer carries component 0 in its low byte. -/
theorem C9_rgb_roundtrip : ∀ r g b : ℕ, r ≤ 255 → g ≤ 255 → b ≤ 255 →
    int2rgb (rgb2int (r, g, b)) = (r, g, b) ∧ rgb2int (r, g, b) &&& 0xff = r := by
  intro r g b hr hg hb
  have he := rgb2int_eq r g b hr hg
  have hmod : ∀ x : ℕ, x &&& 0xff = x % 2 ^ 8 := by
    intro x
    have h255 : (0xff : ℕ) = 2 ^ 8 - 1 := by norm_num
    rw [h255, Nat.and_pow_two_sub_one_eq_mod]
  constructor
  · show (rgb2int (r, g, b) &&& 0xff,
        (rgb2int (r, g, b) >>> 8) &&& 0xff,
        (rgb2int (r, g, b) >>> 16) &&& 0xff) = (r, g, b)
    rw [hmod, hmod, hmod, Nat.shiftRight_eq_div_pow, Nat.shiftRight_eq_div_pow, he]
    refine Prod.ext ?_ (Prod.ext ?_ ?_) <;> simp <;> omega
  · rw [hmod, he]; omega

/-- C9 witness: the round trip and low-byte fact at `(1, 2, 3)`. -/
theorem C9_rgb_roundtrip_witness :
    int2rgb (rgb2int (1, 2, 3)) = (1, 2, 3) ∧ rgb2int (1, 2, 3) &&& 0xff = 1 :=
  C9_rgb_roundtrip 1 2 3 (by decide) (by decide) (by decide)

/-- C10: the stacking special case fires exactly when the parsed
numerator is empty and the parsed denominator contains the substring
`I/`, replacing the payload with `(" ", " ", "/")`; on every other
expression the payload is the normally parsed triple.  The motivating
input `\S^I/^J;` produces exactly that substituted STACK token. -/
theorem C10_stack_substitution : (∀ (expr n t rest d : List Char),
    parseNumerator expr = (n, t, rest) →
    d = (if t.isEmpty then [] else parseDenominator (t = ['^']) rest) →
    ((n.isEmpty = true ∧ jsIncludes ['I', '/'] d = true →
        parseStackingCore expr = ([' '], [' '], ['/'])) ∧
     (¬(n.isEmpty = true ∧ jsIncludes ['I', '/'] d = true) →
        parseStackingCore expr = (n, d, t)))) ∧
    parseMText "\\S^I/^J;".toList MTextContext.default false 300 =
      some [⟨TokenType.STACK, MTextContext.default, TokenData.stack [' '] [' '] ['/']⟩] := by
  constructor
  · intro expr n t rest d hnum hd
    constructor <;> intro hc <;> unfold parseStackingCore <;> rw [hnum] <;> dsimp only <;>
      rw [← hd]
    · rw [if_pos hc]
    · rw [if_neg hc]
  · rfl

/-- C10 witness: the substitution fires on the expression `^I/` (empty
numerator, denominator `I/`) and does not fire on `1/2`. -/
theorem C10_stack_substitution_witness :
    parseStackingCore "^I/".toList = ([' '], [' '], ['/']) ∧
    parseStackingCore "1/2".toList = (['1'], ['2'], ['/']) :=
  ⟨(C10_stack_substitution.1 "^I/".toList [] ['^'] "I/".toList "I/".toList rfl
      (by decide)).1 (by decide),
   (C10_stack_substitution.1 "1/2".toList ['1'] ['/'] ['2'] ['2'] rfl
      (by decide)).2 (by decide)⟩

end Mtext
